import Mathlib

/-
Verification development for the centralized logging module
(repositorio_lib/core/logger.py): DailyRotatingFileHandler,
StructuredLogger, setup_logger and the log_performance context manager.

The embedding is a faithful shallow translation: file-system operations
(closing the old sink, creating the daily directory, opening the new file,
writing a record) and record formatting are modelled as fallible primitives
whose outcome is prescribed by an environment record, and each try/except
of the source is translated to the corresponding case analysis.  Code with
no except around a fallible operation is translated so that the failure
propagates (the Except monad), which is how "raises into the caller" is
observable in the model.
-/

set_option maxHeartbeats 1600000
set_option maxRecDepth 16384

namespace LoggerSpec

/-- Observable output of the handler: a line printed to stderr, a line
printed to stdout, or a write of a formatted record into a log file at a
given path. -/
inductive Event where
  | stderrLine : String → Event
  | stdoutLine : String → Event
  | fileWrite : String → String → Event
deriving DecidableEq, Repr

/-- Outcome of the underlying operations for one emission: the wall-clock
date string at emission time, and whether each fallible operation
(closing the previous sink, mkdir of the daily folder, opening the new
file, writing the record, formatting the record) raises. -/
structure Env where
  now : String
  closeOldFails : Bool
  mkdirFails : Bool
  openFails : Bool
  writeFails : Bool
  formatFails : Bool
deriving DecidableEq, Repr

/-- An open RotatingFileHandler, identified by the path it writes to. -/
structure FileSink where
  path : String
deriving DecidableEq, Repr

/-- Mutable state of a DailyRotatingFileHandler: configuration fields
log_dir and service_name, plus current_date and current_handler. -/
structure HandlerState where
  logDir : String
  serviceName : String
  currentDate : Option String
  currentHandler : Option FileSink
deriving DecidableEq, Repr

/-- Path of the log file for a given day, log_dir/today/service_name.log,
as built in rotate: today_path = log_dir / today, log_file =
today_path / (service_name ++ ".log"). -/
def logFilePath (logDir today serviceName : String) : String :=
  logDir ++ "/" ++ today ++ "/" ++ serviceName ++ ".log"

/-- The negation of the early-return condition of rotate: rotation work is
pending unless today equals the stored date and a sink is open. -/
def rotationPending (st : HandlerState) (today : String) : Bool :=
  !(decide (st.currentDate = some today) && st.currentHandler.isSome)

/-- Result type of a fallible Python operation: ok value or exception. -/
abbrev PyResult (α : Type) := Except String α

/-- True when a PyResult is a normal return, false when it is an
uncaught exception. -/
def pyOk {α : Type} : PyResult α → Bool
  | Except.ok _ => true
  | Except.error _ => false

/-- The formatting step self.format(record) of the handler, fallible
according to the environment. -/
def formatRecord (env : Env) (record : String) : PyResult String :=
  if env.formatFails then Except.error "format error" else Except.ok record

/-- The write step current_handler.emit(record): on success the formatted
record reaches the file of the open sink. -/
def writeRecord (env : Env) (sink : FileSink) (record : String) :
    PyResult Event :=
  if env.writeFails then Except.error "write error"
  else Except.ok (Event.fileWrite sink.path record)

/-- Translation of DailyRotatingFileHandler.rotate_if_needed.  Returns
(success flag, new state, printed events).  If today matches the stored
date and a sink is open it returns true with no work.  Otherwise it closes
the old sink (a failure there is caught by the inner except and only
prints a warning), creates the daily folder, opens the new sink at
log_dir/today/service_name.log, stores today, and prints a success line;
any exception in that sequence is caught by the outer except, which prints
a diagnostic to stderr and returns false with the fields unchanged
(current_date is only assigned after the new sink is created). -/
def rotateIfNeeded (st : HandlerState) (env : Env) :
    Bool × HandlerState × List Event :=
  let today := env.now
  if st.currentDate = some today ∧ st.currentHandler.isSome then
    (true, st, [])
  else
    let closeEvs : List Event :=
      match st.currentHandler with
      | some _ =>
          if env.closeOldFails then
            [Event.stderrLine "Warning closing old handler"]
          else []
      | none => []
    if env.mkdirFails then
      (false, st, closeEvs ++ [Event.stderrLine "Error rotating log file: mkdir"])
    else if env.openFails then
      (false, st, closeEvs ++ [Event.stderrLine "Error rotating log file: open"])
    else
      let logFile := logFilePath st.logDir today st.serviceName
      (true,
        { st with currentDate := some today,
                  currentHandler := some ⟨logFile⟩ },
        closeEvs ++ [Event.stdoutLine ("Log rotated successfully: " ++ logFile)])

/-- Translation of DailyRotatingFileHandler.emit.  Under the lock it runs
the rotation check; if rotation failed it formats the record and prints a
FALLBACK line to stderr (a formatting failure there is swallowed by
except: pass).  Otherwise, if a sink is open, it writes the record; a
write failure is caught and a WRITE ERROR fallback line is printed to
stderr (again with formatting failures swallowed).  Every fallible step
sits inside one of those excepts, so every branch is a normal return. -/
def emit (st : HandlerState) (env : Env) (record : String) :
    PyResult (HandlerState × List Event) :=
  match rotateIfNeeded st env with
  | (false, st1, evs) =>
      match formatRecord env record with
      | Except.ok s =>
          Except.ok (st1, evs ++ [Event.stderrLine ("[FALLBACK] " ++ s)])
      | Except.error _ => Except.ok (st1, evs)
  | (true, st1, evs) =>
      match st1.currentHandler with
      | some h =>
          match writeRecord env h record with
          | Except.ok ev => Except.ok (st1, evs ++ [ev])
          | Except.error e =>
              match formatRecord env record with
              | Except.ok s =>
                  Except.ok
                    (st1, evs ++ [Event.stderrLine ("[WRITE ERROR] " ++ e ++ ": " ++ s)])
              | Except.error _ => Except.ok (st1, evs)
      | none => Except.ok (st1, evs)

/-- Translation of DailyRotatingFileHandler.close: the open sink is closed
(errors ignored) and current_handler is set to None. -/
def closeHandler (st : HandlerState) : HandlerState :=
  { st with currentHandler := none }

/-- State after an emission (the state is unchanged when emit would have
raised, which never happens). -/
def emitResultState (st : HandlerState) (env : Env) (record : String) :
    HandlerState :=
  match emit st env record with
  | Except.ok (st1, _) => st1
  | Except.error _ => st

/-- Events produced by an emission. -/
def emitEvents (st : HandlerState) (env : Env) (record : String) :
    List Event :=
  match emit st env record with
  | Except.ok (_, evs) => evs
  | Except.error _ => []

/-- Internal consistency of a handler state: an open sink always points at
the folder of the stored date.  This holds for every reachable state. -/
def consistentB (st : HandlerState) : Bool :=
  match st.currentHandler with
  | none => true
  | some h =>
      match st.currentDate with
      | none => false
      | some d => h.path == logFilePath st.logDir d st.serviceName

/-- Every file write among a list of events goes to the given path. -/
def writesOnlyTo (evs : List Event) (p : String) : Bool :=
  evs.all (fun e =>
    match e with
    | Event.fileWrite q _ => q == p
    | _ => true)

/-- Some event is the stderr diagnostic of a failed rotation (the outer
except of rotate prints one line per failing operation). -/
def hasRotationError (evs : List Event) : Bool :=
  evs.any (fun e =>
    e == Event.stderrLine "Error rotating log file: mkdir" ||
    e == Event.stderrLine "Error rotating log file: open")

theorem emit_isOk (st : HandlerState) (env : Env) (record : String) :
    pyOk (emit st env record) = true := by
  unfold emit
  split
  · split <;> rfl
  · split
    · split
      · rfl
      · split <;> rfl
    · rfl

/-- C1: for every handler state, every outcome of the underlying file
operations (close, mkdir, open, write, format) and every record, emit
returns normally; no exception propagates into the calling code. -/
theorem emit_never_raises (st : HandlerState) (env : Env) (record : String) :
    pyOk (emit st env record) = true :=
  emit_isOk st env record

/-- C2: the date check runs on every emitted record: when the stored date
matches the wall clock and a sink is open, rotate is a no-op; otherwise a
successful rotation installs the sink for the folder of the emission date;
and in all cases every file write of the emission goes to
log_dir/(date at emission time)/service_name.log. -/
theorem emit_writes_current_date_folder (st : HandlerState) (env : Env)
    (record : String) (st1 : HandlerState) (evs : List Event)
    (hc : consistentB st = true)
    (he : emit st env record = Except.ok (st1, evs)) :
    writesOnlyTo evs (logFilePath st.logDir env.now st.serviceName) = true ∧
    (rotationPending st env.now = false →
      rotateIfNeeded st env = (true, st, [])) ∧
    (rotationPending st env.now = true → env.mkdirFails = false →
      env.openFails = false →
      st1 = { st with
                currentDate := some env.now,
                currentHandler :=
                  some ⟨logFilePath st.logDir env.now st.serviceName⟩ }) := by
  rcases st with ⟨ld, sn, cd, ch⟩
  rcases env with ⟨now, c, m, o, w, f⟩
  by_cases hd : cd = some now
  · subst hd
    rcases ch with _ | ⟨sp⟩
    · cases m <;> cases o <;> cases w <;> cases f <;>
        simp_all [emit, rotateIfNeeded, rotationPending, consistentB,
          writesOnlyTo, formatRecord, writeRecord, logFilePath] <;>
        (rcases he with ⟨h1, h2⟩; subst h2; subst h1; simp)
    · cases c <;> cases m <;> cases o <;> cases w <;> cases f <;>
        simp_all [emit, rotateIfNeeded, rotationPending, consistentB,
          writesOnlyTo, formatRecord, writeRecord, logFilePath] <;>
        (rcases he with ⟨h1, h2⟩; subst h2; subst h1; simp)
  · rcases ch with _ | ⟨sp⟩
    · cases m <;> cases o <;> cases w <;> cases f <;>
        simp_all [emit, rotateIfNeeded, rotationPending, consistentB,
          writesOnlyTo, formatRecord, writeRecord, logFilePath] <;>
        (rcases he with ⟨h1, h2⟩; subst h2; subst h1; simp)
    · cases c <;> cases m <;> cases o <;> cases w <;> cases f <;>
        simp_all [emit, rotateIfNeeded, rotationPending, consistentB,
          writesOnlyTo, formatRecord, writeRecord, logFilePath] <;>
        (rcases he with ⟨h1, h2⟩; subst h2; subst h1; simp)

/-- Handler state holding an open sink for 2025-11-25. -/
def stDay1 : HandlerState :=
  { logDir := "logs", serviceName := "svc",
    currentDate := some "2025-11-25",
    currentHandler := some ⟨"logs/2025-11-25/svc.log"⟩ }

/-- Environment for an emission on 2025-11-26 where every file operation
succeeds. -/
def envDay2 : Env :=
  { now := "2025-11-26", closeOldFails := false, mkdirFails := false,
    openFails := false, writeFails := false, formatFails := false }

theorem emit_writes_current_date_folder_witness :
    writesOnlyTo (emitEvents stDay1 envDay2 "hello")
        (logFilePath stDay1.logDir envDay2.now stDay1.serviceName) = true ∧
    (rotationPending stDay1 envDay2.now = false →
      rotateIfNeeded stDay1 envDay2 = (true, stDay1, [])) ∧
    (rotationPending stDay1 envDay2.now = true → envDay2.mkdirFails = false →
      envDay2.openFails = false →
      emitResultState stDay1 envDay2 "hello" =
        { stDay1 with
            currentDate := some envDay2.now,
            currentHandler :=
              some ⟨logFilePath stDay1.logDir envDay2.now stDay1.serviceName⟩ }) :=
  emit_writes_current_date_folder stDay1 envDay2 "hello"
    (emitResultState stDay1 envDay2 "hello")
    (emitEvents stDay1 envDay2 "hello") (by decide) (by rfl)

/-- C3: when rotation work is pending and the folder creation or the file
open fails, emit still returns with the state unchanged, a diagnostic is
printed to stderr, the triggering record is printed on the stderr fallback
sink, and since current_date was left un-updated the rotation check fires
again on the very next emitted record of that date. -/
theorem rotation_failure_retry (st : HandlerState) (env : Env)
    (record : String)
    (hp : rotationPending st env.now = true)
    (hf : env.mkdirFails = true ∨ env.openFails = true)
    (hfmt : env.formatFails = false) :
    emitResultState st env record = st ∧
    hasRotationError (emitEvents st env record) = true ∧
    Event.stderrLine ("[FALLBACK] " ++ record) ∈ emitEvents st env record ∧
    rotationPending (emitResultState st env record) env.now = true := by
  rcases st with ⟨ld, sn, cd, ch⟩
  rcases env with ⟨now, c, m, o, w, f⟩
  by_cases hd : cd = some now
  · subst hd
    rcases ch with _ | ⟨sp⟩ <;> cases c <;> cases m <;> cases o <;>
      simp_all [emit, emitResultState, emitEvents, rotateIfNeeded,
        rotationPending, hasRotationError, formatRecord, writeRecord]
  · rcases ch with _ | ⟨sp⟩ <;> cases c <;> cases m <;> cases o <;>
      simp_all [emit, emitResultState, emitEvents, rotateIfNeeded,
        rotationPending, hasRotationError, formatRecord, writeRecord]

/-- Environment for an emission on 2025-11-26 where creating the daily
folder fails. -/
def envMkdirFail : Env :=
  { now := "2025-11-26", closeOldFails := false, mkdirFails := true,
    openFails := false, writeFails := false, formatFails := false }

theorem rotation_failure_retry_witness :
    emitResultState stDay1 envMkdirFail "hello" = stDay1 ∧
    hasRotationError (emitEvents stDay1 envMkdirFail "hello") = true ∧
    Event.stderrLine ("[FALLBACK] " ++ "hello") ∈
      emitEvents stDay1 envMkdirFail "hello" ∧
    rotationPending (emitResultState stDay1 envMkdirFail "hello")
      envMkdirFail.now = true :=
  rotation_failure_retry stDay1 envMkdirFail "hello" (by decide)
    (Or.inl (by decide)) (by decide)

/-- C9 counterexample: after close, emitting one more record under an
environment where the file operations succeed reopens a file sink and
writes the record to it, so the sink is not closed permanently. -/
theorem emit_after_close_reopens_sink :
    (emitResultState (closeHandler stDay1) envDay2 "late").currentHandler =
      some ⟨"logs/2025-11-26/svc.log"⟩ ∧
    Event.fileWrite "logs/2025-11-26/svc.log" "late" ∈
      emitEvents (closeHandler stDay1) envDay2 "late" := by
  constructor
  · rfl
  · decide

/-- C9 (amended): close closes and clears the active sink, but a
subsequent emit treats the missing sink as pending rotation work and, when
the directory creation and the file open succeed, opens a new file sink
for the emission date; the sink stays closed only while no further record
is emitted after close. -/
theorem close_then_emit_rotates (st : HandlerState) (env : Env)
    (record : String) (hm : env.mkdirFails = false)
    (ho : env.openFails = false) :
    (closeHandler st).currentHandler = none ∧
    (emitResultState (closeHandler st) env record).currentHandler =
      some ⟨logFilePath st.logDir env.now st.serviceName⟩ := by
  rcases st with ⟨ld, sn, cd, ch⟩
  rcases env with ⟨now, c, m, o, w, f⟩
  cases w <;> cases f <;>
    simp_all [closeHandler, emitResultState, emit, rotateIfNeeded,
      formatRecord, writeRecord, logFilePath]

theorem close_then_emit_rotates_witness :
    (closeHandler stDay1).currentHandler = none ∧
    (emitResultState (closeHandler stDay1) envDay2 "again").currentHandler =
      some ⟨logFilePath stDay1.logDir envDay2.now stDay1.serviceName⟩ :=
  close_then_emit_rotates stDay1 envDay2 "again" (by decide) (by decide)

/-- Kind and level of an output sink attached by setup_logger: the stdout
console handler or the daily rotating file handler. -/
inductive Sink where
  | console (level : Nat)
  | dailyFile (level : Nat)
deriving DecidableEq, Repr

/-- State of a named logging.Logger: its level, its propagate flag and the
list of attached handlers. -/
structure LoggerState where
  level : Nat
  propagate : Bool
  handlers : List Sink
deriving DecidableEq, Repr

/-- A logger as logging.getLogger first creates it: level NOTSET,
propagate true, no handlers. -/
def freshLogger : LoggerState :=
  { level := 0, propagate := true, handlers := [] }

/-- Translation of setup_logger acting on the state of the named logger:
setLevel and propagate are applied unconditionally; then, if handlers are
already attached, the logger is returned as is; otherwise the console
handler is attached and, unless configuring file logging raises (in which
case only warnings are logged and the logger stays console-only), the
daily rotating file handler is attached as well. -/
def setup_logger (st : LoggerState) (level : Nat) (propagate : Bool)
    (fileSetupFails : Bool) : LoggerState :=
  let st1 := { st with level := level, propagate := propagate }
  if st1.handlers ≠ [] then st1
  else
    let st2 := { st1 with handlers := [Sink.console level] }
    if fileSetupFails then st2
    else { st2 with handlers := st2.handlers ++ [Sink.dailyFile level] }

/-- C4 counterexample: a second call for a logger that already has sinks
attached does not return the instance unchanged when its arguments differ
from the first call: it re-applies setLevel before the handlers check, so
the level moves from 10 to 20. -/
theorem setup_logger_second_call_not_unchanged :
    setup_logger (setup_logger freshLogger 10 false false) 20 false false ≠
      setup_logger freshLogger 10 false false := by decide

/-- C4 (amended): a second call for a name whose logger already has sinks
attached keeps the handler list unchanged, so no sinks are doubled, and
re-applies only the level and propagate arguments; calling the factory
again with the same level and propagate returns a logger state identical
to the one the first call produced. -/
theorem setup_logger_idempotent_sinks (st : LoggerState) (level : Nat)
    (propagate fileFails fileFails2 : Bool)
    (h : st.handlers ≠ []) :
    (setup_logger st level propagate fileFails).handlers = st.handlers ∧
    setup_logger (setup_logger st level propagate fileFails) level propagate
        fileFails2 =
      setup_logger st level propagate fileFails := by
  rcases st with ⟨lv, pr, hs⟩
  constructor
  · cases hs with
    | nil => exact absurd rfl h
    | cons a t => simp [setup_logger]
  · cases hs <;> cases fileFails <;> cases fileFails2 <;>
      simp [setup_logger]

/-- A logger state with both sinks attached at level 10, as produced by a
first successful setup_logger call. -/
def configuredLogger : LoggerState :=
  { level := 10, propagate := false,
    handlers := [Sink.console 10, Sink.dailyFile 10] }

theorem setup_logger_idempotent_sinks_witness :
    (setup_logger configuredLogger 20 true false).handlers =
      configuredLogger.handlers ∧
    setup_logger (setup_logger configuredLogger 20 true false) 20 true true =
      setup_logger configuredLogger 20 true false :=
  setup_logger_idempotent_sinks configuredLogger 20 true false true
    (by decide)

/-- Association list modelling a Python dict with its insertion order: the
key-value pairs in the order the keys were first inserted. -/
abbrev Dict (α : Type) := List (String × α)

/-- Single-key assignment d[k] = v: an existing key keeps its position and
receives the new value, a new key is appended at the end. -/
def dictUpdate {α : Type} (d : Dict α) (kv : String × α) : Dict α :=
  if d.any (fun p => decide (p.1 = kv.1)) then
    d.map (fun p => if p.1 = kv.1 then (p.1, kv.2) else p)
  else d ++ [kv]

/-- The dict built by two-star unpacking of a then b (also the effect of
a.update(b)): every pair of b assigned into a copy of a in order. -/
def dictMerge {α : Type} (a b : Dict α) : Dict α :=
  b.foldl dictUpdate a

/-- Python dict lookup: the value stored at the key (the first occurrence
decides, and keys of a dict are unique). -/
def getVal {α : Type} : Dict α → String → Option α
  | [], _ => none
  | p :: rest, k => if p.1 = k then some p.2 else getVal rest k

theorem dictUpdate_of_not_mem {α : Type} (d : Dict α) (kv : String × α)
    (h : kv.1 ∉ d.map Prod.fst) : dictUpdate d kv = d ++ [kv] := by
  unfold dictUpdate
  rw [if_neg]
  intro hc
  simp only [List.any_eq_true, decide_eq_true_eq] at hc
  obtain ⟨p, hp, hpe⟩ := hc
  exact h (hpe ▸ List.mem_map_of_mem Prod.fst hp)

theorem dictMerge_disjoint {α : Type} (a b : Dict α)
    (hnd : (b.map Prod.fst).Nodup)
    (hdisj : ∀ k, k ∈ b.map Prod.fst → k ∉ a.map Prod.fst) :
    dictMerge a b = a ++ b := by
  induction b generalizing a with
  | nil => simp [dictMerge]
  | cons kv rest ih =>
    simp only [List.map_cons, List.nodup_cons] at hnd
    have hk : kv.1 ∉ a.map Prod.fst := hdisj kv.1 (by simp)
    have step : dictMerge a (kv :: rest) = dictMerge (a ++ [kv]) rest := by
      simp [dictMerge, dictUpdate_of_not_mem a kv hk]
    rw [step, ih (a ++ [kv]) hnd.2 ?_]
    · simp
    · intro k hkr hmem
      rcases (by simpa using hmem : k ∈ a.map Prod.fst ∨ k = kv.1) with
        hma | hkv
      · exact hdisj k (by simp [hkr]) hma
      · exact hnd.1 (hkv ▸ hkr)

theorem getVal_map_update_self {α : Type} (d : Dict α) (k : String)
    (v : α) (hmem : k ∈ d.map Prod.fst) :
    getVal (d.map (fun p => if p.1 = k then (p.1, v) else p)) k = some v := by
  induction d with
  | nil => simp at hmem
  | cons p rest ih =>
    by_cases hp : p.1 = k
    · simp [getVal, hp]
    · have hrest : k ∈ rest.map Prod.fst := by
        rcases List.mem_map.mp hmem with ⟨q, hq, hqe⟩
        rcases List.mem_cons.mp hq with rfl | hq2
        · exact absurd hqe hp
        · exact hqe ▸ List.mem_map_of_mem Prod.fst hq2
      simp [getVal, hp, ih hrest]

theorem getVal_append_single_self {α : Type} (d : Dict α) (k : String)
    (v : α) (hnot : k ∉ d.map Prod.fst) :
    getVal (d ++ [(k, v)]) k = some v := by
  induction d with
  | nil => simp [getVal]
  | cons p rest ih =>
    have hp : ¬p.1 = k := by
      intro hx
      exact hnot (by simp [hx])
    have hrest : k ∉ rest.map Prod.fst := by
      intro hx
      exact hnot (by simp [hx])
    simp [getVal, hp, ih hrest]

theorem getVal_dictUpdate_self {α : Type} (d : Dict α) (k : String)
    (v : α) : getVal (dictUpdate d (k, v)) k = some v := by
  unfold dictUpdate
  split
  case isTrue hany =>
    apply getVal_map_update_self
    simp only [List.any_eq_true, decide_eq_true_eq] at hany
    obtain ⟨p, hp, hpe⟩ := hany
    have hmm : p.1 ∈ d.map Prod.fst := List.mem_map_of_mem Prod.fst hp
    rwa [hpe] at hmm
  case isFalse hany =>
    apply getVal_append_single_self
    intro hmem
    apply hany
    simp only [List.any_eq_true, decide_eq_true_eq]
    obtain ⟨p, hp, hpe⟩ := List.mem_map.mp hmem
    exact ⟨p, hp, hpe⟩

theorem getVal_map_update_other {α : Type} (d : Dict α) (k k2 : String)
    (v : α) (h : k2 ≠ k) :
    getVal (d.map (fun p => if p.1 = k then (p.1, v) else p)) k2 =
      getVal d k2 := by
  induction d with
  | nil => simp [getVal]
  | cons p rest ih =>
    have hk2k : ¬k = k2 := fun hx => h hx.symm
    by_cases hp : p.1 = k
    · have hp2 : ¬p.1 = k2 := by
        intro hx
        exact h (hx ▸ hp)
      simp [getVal, hp, hp2, hk2k, ih]
    · by_cases hp2 : p.1 = k2
      · simp [getVal, hp, hp2, h, ih]
      · simp [getVal, hp, hp2, ih]

theorem getVal_append_single_other {α : Type} (d : Dict α) (k k2 : String)
    (v : α) (h : k2 ≠ k) :
    getVal (d ++ [(k, v)]) k2 = getVal d k2 := by
  induction d with
  | nil =>
    have : ¬k = k2 := fun hx => h hx.symm
    simp [getVal, this]
  | cons p rest ih =>
    by_cases hp : p.1 = k2 <;> simp [getVal, hp, ih]

theorem getVal_dictUpdate_other {α : Type} (d : Dict α) (k k2 : String)
    (v : α) (h : k2 ≠ k) :
    getVal (dictUpdate d (k, v)) k2 = getVal d k2 := by
  unfold dictUpdate
  split
  · exact getVal_map_update_other d k k2 v h
  · exact getVal_append_single_other d k k2 v h

theorem getVal_dictMerge_not_mem {α : Type} (a b : Dict α) (k : String)
    (h : k ∉ b.map Prod.fst) :
    getVal (dictMerge a b) k = getVal a k := by
  induction b generalizing a with
  | nil => rfl
  | cons kv rest ih =>
    have h1 : k ∉ rest.map Prod.fst := fun hx => h (by simp [hx])
    have h2 : k ≠ kv.1 := fun hx => h (by simp [hx])
    calc getVal (dictMerge a (kv :: rest)) k
        = getVal (dictMerge (dictUpdate a kv) rest) k := rfl
      _ = getVal (dictUpdate a kv) k := ih (dictUpdate a kv) h1
      _ = getVal a k := by
          rcases kv with ⟨k1, v1⟩
          exact getVal_dictUpdate_other a k1 k v1 h2

theorem getVal_dictMerge_mem {α : Type} (a b : Dict α) (k : String)
    (v : α) (hnd : (b.map Prod.fst).Nodup) (hm : (k, v) ∈ b) :
    getVal (dictMerge a b) k = some v := by
  induction b generalizing a with
  | nil => simp at hm
  | cons kv rest ih =>
    simp only [List.map_cons, List.nodup_cons] at hnd
    rcases List.mem_cons.mp hm with heq | hrest
    · have hk : k ∉ rest.map Prod.fst := by
        have : kv.1 = k := by rw [← heq]
        exact this ▸ hnd.1
      calc getVal (dictMerge a (kv :: rest)) k
          = getVal (dictMerge (dictUpdate a kv) rest) k := rfl
        _ = getVal (dictUpdate a kv) k :=
            getVal_dictMerge_not_mem (dictUpdate a kv) rest k hk
        _ = some v := by rw [← heq]; exact getVal_dictUpdate_self a k v
    · exact ih (dictUpdate a kv) hnd.2 hrest

/-- Translation of StructuredLogger.format_fields on already-stringified
values: the empty dict gives the empty string, otherwise a separator
followed by space-separated key=value pairs in dict order. -/
def format_fields (fields : Dict String) : String :=
  if fields.isEmpty then ""
  else " | " ++ String.intercalate " " (fields.map (fun p => p.1 ++ "=" ++ p.2))

/-- Ambient context of a StructuredLogger. -/
structure StructuredLogger where
  context : Dict String
deriving DecidableEq, Repr

/-- Translation of set_context: dict.update of the ambient context with
the keyword arguments. -/
def set_context (l : StructuredLogger) (kvs : Dict String) :
    StructuredLogger :=
  ⟨dictMerge l.context kvs⟩

/-- Translation of clear_context: the ambient context is emptied. -/
def clear_context (_l : StructuredLogger) : StructuredLogger :=
  ⟨[]⟩

/-- The message string that StructuredLogger.log hands to the underlying
logger at the requested severity (the same construction is inlined in
error and critical): the message followed by the formatted two-star merge
of the ambient context with the per-call fields. -/
def log_line (l : StructuredLogger) (msg : String) (fields : Dict String) :
    String :=
  msg ++ format_fields (dictMerge l.context fields)

/-- C5: an emission appends the merged ambient and per-call fields as a
space-separated key=value tail: with disjoint keys the tail lists the
ambient fields first in insertion order and then the per-call fields in
call order; on a key collision the per-call value wins; and the concrete
round trip set_context a=1, info msg b=2, clear_context, info msg2 gives
a first line carrying a=1 then b=2 and a second line with no tail. -/
theorem structured_log_tail :
    (∀ ctx fields msg,
        (fields.map Prod.fst).Nodup →
        (∀ k, k ∈ fields.map Prod.fst → k ∉ ctx.map Prod.fst) →
        log_line ⟨ctx⟩ msg fields = msg ++ format_fields (ctx ++ fields)) ∧
    (∀ (ctx fields : Dict String) (k v : String),
        (fields.map Prod.fst).Nodup → (k, v) ∈ fields →
        getVal (dictMerge ctx fields) k = some v) ∧
    log_line (set_context ⟨[]⟩ [("a", "1")]) "msg" [("b", "2")] =
      "msg | a=1 b=2" ∧
    log_line (clear_context (set_context ⟨[]⟩ [("a", "1")])) "msg2" [] =
      "msg2" := by
  refine ⟨?_, ?_, ?_, ?_⟩
  · intro ctx fields msg hnd hdisj
    unfold log_line
    rw [dictMerge_disjoint ctx fields hnd hdisj]
  · intro ctx fields k v hnd hm
    exact getVal_dictMerge_mem ctx fields k v hnd hm
  · decide
  · decide

theorem structured_log_tail_witness :
    log_line ⟨[("req", "7")]⟩ "m" [("user", "9")] =
      "m" ++ format_fields ([("req", "7")] ++ [("user", "9")]) ∧
    getVal (dictMerge [("req", "7")] [("req", "8")]) "req" = some "8" :=
  ⟨structured_log_tail.1 [("req", "7")] [("user", "9")] "m" (by decide)
      (by decide),
    structured_log_tail.2.1 [("req", "7")] [("req", "8")] "req" "8"
      (by decide) (by decide)⟩

/-- Severity of a log call made by the performance instrument. -/
inductive Level where
  | debug
  | info
  | warning
  | error
  | critical
deriving DecidableEq, Repr

/-- The message of one log call of log_performance, one constructor per
format string of the source, carrying the values interpolated into it:
failed is the ERROR text (operation FAILED after so many ms plus the
context tail), slow is the WARNING text (operation took so many ms with
the SLOW marker naming the threshold, plus the context tail), completed
is the DEBUG text (operation completed in so many ms plus the context
tail). -/
inductive PerfMsg where
  | failed (operation : String) (elapsedMs : ℚ) (context : String)
  | slow (operation : String) (elapsedMs thresholdMs : ℚ) (context : String)
  | completed (operation : String) (elapsedMs : ℚ) (context : String)
deriving DecidableEq, Repr

/-- One log call of the performance instrument: severity, message, and
whether exception details are attached (exc_info=True). -/
structure PerfEvent where
  level : Level
  msg : PerfMsg
  excInfo : Bool
deriving DecidableEq, Repr

/-- Translation of the log_performance context manager around one run of
the wrapped block.  exc is the exception raised by the block (none for a
normal exit); elapsedAtExcept and elapsedAtFinally are the elapsed times
computed separately in the except block and in the finally block (each
reads perf_counter again).  The except branch logs one ERROR line with
exc_info and re-raises; the finally branch always logs one completion
line, at WARNING with the SLOW marker when the elapsed time reached the
threshold and at DEBUG below it.  The result pairs the emitted log calls
in order with the exception that propagates to the caller. -/
def log_performance (thresholdMs : ℚ) (operation context : String)
    (exc : Option String) (elapsedAtExcept elapsedAtFinally : ℚ) :
    List PerfEvent × Option String :=
  let excEvents : List PerfEvent :=
    match exc with
    | some _ =>
        [⟨Level.error, PerfMsg.failed operation elapsedAtExcept context, true⟩]
    | none => []
  let finallyEvent : PerfEvent :=
    if thresholdMs ≤ elapsedAtFinally then
      ⟨Level.warning,
        PerfMsg.slow operation elapsedAtFinally thresholdMs context, false⟩
    else
      ⟨Level.debug, PerfMsg.completed operation elapsedAtFinally context,
        false⟩
  (excEvents ++ [finallyEvent], exc)

/-- C6: a normally exiting operation produces exactly one completion line:
at WARNING, carrying the SLOW marker and the threshold value, when the
elapsed time is at least the threshold, and at DEBUG otherwise; in
particular an operation finishing one millisecond under the threshold
logs at DEBUG and one finishing one millisecond over it at WARNING. -/
theorem log_performance_threshold (t : ℚ) (op ctx : String) (e0 e : ℚ) :
    (t ≤ e →
      (log_performance t op ctx none e0 e).1 =
        [⟨Level.warning, PerfMsg.slow op e t ctx, false⟩]) ∧
    (e < t →
      (log_performance t op ctx none e0 e).1 =
        [⟨Level.debug, PerfMsg.completed op e ctx, false⟩]) ∧
    (log_performance t op ctx none e0 (t - 1)).1 =
      [⟨Level.debug, PerfMsg.completed op (t - 1) ctx, false⟩] ∧
    (log_performance t op ctx none e0 (t + 1)).1 =
      [⟨Level.warning, PerfMsg.slow op (t + 1) t ctx, false⟩] := by
  refine ⟨?_, ?_, ?_, ?_⟩
  · intro h
    simp [log_performance, h]
  · intro h
    simp [log_performance, not_le.mpr h]
  · have h : ¬t ≤ t - 1 := by
      intro h
      linarith
    simp [log_performance, h]
  · have h : t ≤ t + 1 := by linarith
    simp [log_performance, h]

theorem log_performance_threshold_witness :
    (log_performance 10 "query" "" none 0 11).1 =
      [⟨Level.warning, PerfMsg.slow "query" 11 10 "", false⟩] ∧
    (log_performance 10 "query" "" none 0 9).1 =
      [⟨Level.debug, PerfMsg.completed "query" 9 "", false⟩] :=
  ⟨(log_performance_threshold 10 "query" "" 0 11).1 (by norm_num),
    (log_performance_threshold 10 "query" "" 0 9).2.1 (by norm_num)⟩

/-- C7: when the wrapped operation raises, the instrument logs a line at
ERROR carrying the elapsed time and the exception details, and the
original exception propagates to the caller unchanged. -/
theorem log_performance_reraises (t : ℚ) (op ctx exc : String)
    (e1 e2 : ℚ) :
    (log_performance t op ctx (some exc) e1 e2).2 = some exc ∧
    ⟨Level.error, PerfMsg.failed op e1 ctx, true⟩ ∈
      (log_performance t op ctx (some exc) e1 e2).1 := by
  constructor
  · rfl
  · simp [log_performance]

/-- C10: when the wrapped operation raises, two lines are emitted before
the exception propagates: the ERROR line of the except branch, then the
completion line of the finally branch at WARNING or DEBUG with its own
separately computed elapsed time. -/
theorem log_performance_two_lines_on_exception (t : ℚ) (op ctx exc : String)
    (e1 e2 : ℚ) :
    (log_performance t op ctx (some exc) e1 e2).1 =
      [⟨Level.error, PerfMsg.failed op e1 ctx, true⟩,
        if t ≤ e2 then ⟨Level.warning, PerfMsg.slow op e2 t ctx, false⟩
        else ⟨Level.debug, PerfMsg.completed op e2 ctx, false⟩] ∧
    (log_performance t op ctx (some exc) e1 e2).2 = some exc := by
  constructor
  · by_cases h : t ≤ e2 <;> simp [log_performance, h]
  · rfl

/-- A Python value as the field formatter sees it: whether str(v)
succeeds, and the string it returns when it does. -/
structure PyVal where
  strOk : Bool
  str : String
deriving DecidableEq, Repr

/-- str(v): stringification of a value, which a user-defined type can make
raise. -/
def pyStr (v : PyVal) : PyResult String :=
  if v.strOk then Except.ok v.str else Except.error "str raised"

/-- The k=v pieces of the field tail in order: each piece forces str(v),
and the first failing stringification propagates. -/
def mapFields : Dict PyVal → PyResult (List String)
  | [] => Except.ok []
  | p :: rest =>
      match pyStr p.2 with
      | Except.error e => Except.error e
      | Except.ok s =>
          match mapFields rest with
          | Except.error e => Except.error e
          | Except.ok parts => Except.ok ((p.1 ++ "=" ++ s) :: parts)

/-- Translation of StructuredLogger.format_fields on raw values: the
f-string building each key=value pair forces str(v) for every field, and
no try/except surrounds it, so the first failing stringification
propagates to the caller. -/
def format_fields_raw (fields : Dict PyVal) : PyResult String :=
  if fields.isEmpty then Except.ok ""
  else
    match mapFields fields with
    | Except.error e => Except.error e
    | Except.ok parts => Except.ok (" | " ++ String.intercalate " " parts)

/-- Translation of StructuredLogger.error up to the call into the
underlying logger: merge the ambient context with the per-call fields,
format them, and build the final message.  No try/except guards this
path, so a formatting failure raises out of the logging call. -/
def slog_error (context fields : Dict PyVal) (msg : String) :
    PyResult String :=
  match format_fields_raw (dictMerge context fields) with
  | Except.error e => Except.error e
  | Except.ok tail => Except.ok (msg ++ tail)

/-- Every field value stringifies. -/
def allStrOk (fields : Dict PyVal) : Bool :=
  fields.all (fun p => p.2.strOk)

theorem allStrOk_dictUpdate (d : Dict PyVal) (kv : String × PyVal)
    (hd : allStrOk d = true) (hv : kv.2.strOk = true) :
    allStrOk (dictUpdate d kv) = true := by
  unfold allStrOk at hd ⊢
  unfold dictUpdate
  split
  · rw [List.all_eq_true] at hd ⊢
    intro q hq
    obtain ⟨p, hp, hpe⟩ := List.mem_map.mp hq
    by_cases hc : p.1 = kv.1
    · rw [← hpe]
      simpa [hc] using hv
    · rw [← hpe]
      simpa [hc] using hd p hp
  · simp [List.all_append, hd, hv]

theorem allStrOk_dictMerge (a b : Dict PyVal) (ha : allStrOk a = true)
    (hb : allStrOk b = true) : allStrOk (dictMerge a b) = true := by
  induction b generalizing a with
  | nil => exact ha
  | cons kv rest ih =>
    simp only [allStrOk, List.all_cons, Bool.and_eq_true] at hb
    exact ih (dictUpdate a kv) (allStrOk_dictUpdate a kv ha hb.1) hb.2

theorem mapFields_ok (fields : Dict PyVal) (h : allStrOk fields = true) :
    ∃ parts, mapFields fields = Except.ok parts := by
  induction fields with
  | nil => exact ⟨[], rfl⟩
  | cons p rest ih =>
    simp only [allStrOk, List.all_cons, Bool.and_eq_true] at h
    obtain ⟨parts, hp⟩ := ih (by simpa [allStrOk] using h.2)
    refine ⟨(p.1 ++ "=" ++ p.2.str) :: parts, ?_⟩
    simp [mapFields, pyStr, h.1, hp]

theorem format_fields_raw_ok (fields : Dict PyVal)
    (h : allStrOk fields = true) : pyOk (format_fields_raw fields) = true := by
  unfold format_fields_raw
  split
  · rfl
  · obtain ⟨parts, hp⟩ := mapFields_ok fields h
    simp [hp, pyOk]

/-- C8 counterexample: calling error with one context field whose value
cannot be stringified makes the logging call itself raise; the formatting
failure is not caught and no fallback line is produced. -/
theorem slog_error_raises_on_bad_value :
    pyOk (slog_error [("user", ⟨false, ""⟩)] [] "boom") = false := by
  decide

/-- C8 (amended): the emission path of the file handler does catch record
formatting failures (emit returns normally whatever the formatting
outcome is), and a structured log call whose field values all stringify
builds its line without raising; but a formatting failure while
stringifying a context field value happens in StructuredLogger before any
handler runs and is unguarded, so that call raises into the caller. -/
theorem handler_catches_formatting_not_slog (context fields : Dict PyVal)
    (msg : String) (st : HandlerState) (env : Env) (record : String)
    (hctx : allStrOk context = true) (hf : allStrOk fields = true) :
    pyOk (slog_error context fields msg) = true ∧
    pyOk (emit st env record) = true := by
  constructor
  · unfold slog_error
    have hall := allStrOk_dictMerge context fields hctx hf
    have hok := format_fields_raw_ok (dictMerge context fields) hall
    rcases hfmt : format_fields_raw (dictMerge context fields) with e | tail
    · rw [hfmt] at hok
      exact absurd hok (by simp [pyOk])
    · simp [hfmt, pyOk]
  · exact emit_isOk st env record

/-- Environment for an emission where the record formatting raises but
every file operation succeeds. -/
def envFmtFail : Env :=
  { now := "2025-11-26", closeOldFails := false, mkdirFails := false,
    openFails := false, writeFails := true, formatFails := true }

theorem handler_catches_formatting_not_slog_witness :
    pyOk (slog_error [("req", ⟨true, "7"⟩)] [("user", ⟨true, "9"⟩)] "m") =
      true ∧
    pyOk (emit stDay1 envFmtFail "x") = true :=
  handler_catches_formatting_not_slog [("req", ⟨true, "7"⟩)]
    [("user", ⟨true, "9"⟩)] "m" stDay1 envFmtFail "x" (by decide) (by decide)

/-- Construction of a DailyRotatingFileHandler: the configuration fields
are stored, current_date and current_handler start as None, and the
constructor runs one rotation attempt whose boolean result is
discarded. -/
def init_handler (logDir serviceName : String) (env : Env) :
    HandlerState × List Event :=
  let st0 : HandlerState :=
    { logDir := logDir, serviceName := serviceName,
      currentDate := none, currentHandler := none }
  let r := rotateIfNeeded st0 env
  (r.2.1, r.2.2)

theorem consistentB_init (logDir serviceName : String) (env : Env) :
    consistentB (init_handler logDir serviceName env).1 = true := by
  rcases env with ⟨now, c, m, o, w, f⟩
  cases m <;> cases o <;>
    simp [init_handler, rotateIfNeeded, consistentB, logFilePath]

theorem consistentB_close (st : HandlerState) :
    consistentB (closeHandler st) = true := rfl

theorem consistentB_emit (st : HandlerState) (env : Env) (record : String)
    (h : consistentB st = true) :
    consistentB (emitResultState st env record) = true := by
  rcases st with ⟨ld, sn, cd, ch⟩
  rcases env with ⟨now, c, m, o, w, f⟩
  by_cases hd : cd = some now
  · subst hd
    rcases ch with _ | ⟨sp⟩ <;> cases c <;> cases m <;> cases o <;>
      cases w <;> cases f <;>
      simp_all [emitResultState, emit, rotateIfNeeded, consistentB,
        formatRecord, writeRecord, logFilePath]
  · rcases ch with _ | ⟨sp⟩ <;> cases c <;> cases m <;> cases o <;>
      cases w <;> cases f <;>
      simp_all [emitResultState, emit, rotateIfNeeded, consistentB,
        formatRecord, writeRecord, logFilePath]

end LoggerSpec
